import Mathlib

/-!
Verification development for the Singr backend authentication, session and
authorization core: the sliding-window rate limiter, the refresh token store,
the permission resolver with versioned cache, the token service's active
context resolution, and the request authorization context.

The Lean definitions below are shallow embeddings of the TypeScript source:
pure functions become Lean functions, the Redis-backed state becomes explicit
state passing over association lists / marker lists, fallible operations
return `Option` or `Except`, and JavaScript numeric time (milliseconds since
epoch) becomes `Int`. Cryptographic digests are modelled as ideal
collision-free functions (an injective tagging of the preimage), which is the
standard idealisation of SHA-256.
-/

namespace Singr

/-- Association-list lookup by string key; first binding wins, mirroring a
key-value store where `insert` overwrites. -/
def lookupAssoc {β : Type} : List (String × β) → String → Option β
  | [], _ => none
  | (k', v) :: rest, k => if k' = k then some v else lookupAssoc rest k

/-- Association-list insert modelled as prepending the new binding (the most
recent write shadows older ones, as in `redis.set`). -/
def insertAssoc {β : Type} (l : List (String × β)) (k : String) (v : β) :
    List (String × β) :=
  (k, v) :: l

theorem lookupAssoc_insert_self {β : Type} (l : List (String × β)) (k : String) (v : β) :
    lookupAssoc (insertAssoc l k v) k = some v := by
  simp [lookupAssoc, insertAssoc]

theorem lookupAssoc_insert_ne {β : Type} (l : List (String × β)) (k k' : String) (v : β)
    (h : k ≠ k') : lookupAssoc (insertAssoc l k v) k' = lookupAssoc l k' := by
  simp [lookupAssoc, insertAssoc, h]

/-- Lexicographic comparison of character lists by code point, the order JS
`Array.prototype.sort()` applies to strings (for the code points appearing in
this system's slugs and ids it coincides with UTF-16 code-unit order). -/
def charListLe : List Char → List Char → Bool
  | [], _ => true
  | _ :: _, [] => false
  | a :: as, b :: bs =>
    if a.toNat < b.toNat then true
    else if b.toNat < a.toNat then false
    else charListLe as bs

/-- JS default string ordering. -/
def stringLe (a b : String) : Bool := charListLe a.data b.data

theorem charListLe_total (a : List Char) : ∀ b : List Char,
    charListLe a b = true ∨ charListLe b a = true := by
  induction a with
  | nil => intro b; left; simp [charListLe]
  | cons x as ih =>
    intro b
    cases b with
    | nil => right; simp [charListLe]
    | cons y bs =>
      by_cases h1 : x.toNat < y.toNat
      · left; simp [charListLe, h1]
      · by_cases h2 : y.toNat < x.toNat
        · right; simp [charListLe, h1, h2]
        · rcases ih bs with h | h
          · left; simp [charListLe, h1, h2, h]
          · right; simp [charListLe, h1, h2, h]

theorem charListLe_trans (a : List Char) : ∀ b c : List Char,
    charListLe a b = true → charListLe b c = true → charListLe a c = true := by
  induction a with
  | nil => intro b c _ _; simp [charListLe]
  | cons x as ih =>
    intro b c hab hbc
    cases b with
    | nil => simp [charListLe] at hab
    | cons y bs =>
      cases c with
      | nil => simp [charListLe] at hbc
      | cons z cs =>
        simp only [charListLe] at hab hbc ⊢
        by_cases hxy : x.toNat < y.toNat
        · by_cases hyz : y.toNat < z.toNat
          · have : x.toNat < z.toNat := Nat.lt_trans hxy hyz
            simp [this]
          · by_cases hzy : z.toNat < y.toNat
            · simp [hyz, hzy] at hbc
            · have hyzEq : y.toNat = z.toNat := Nat.le_antisymm
                (Nat.le_of_not_lt hzy) (Nat.le_of_not_lt hyz)
              have : x.toNat < z.toNat := hyzEq ▸ hxy
              simp [this]
        · by_cases hyx : y.toNat < x.toNat
          · simp [hxy, hyx] at hab
          · have hxyEq : x.toNat = y.toNat := Nat.le_antisymm
              (Nat.le_of_not_lt hyx) (Nat.le_of_not_lt hxy)
            by_cases hyz : y.toNat < z.toNat
            · have : x.toNat < z.toNat := hxyEq ▸ hyz
              simp [this]
            · by_cases hzy : z.toNat < y.toNat
              · simp [hyz, hzy] at hbc
              · simp [hxy, hyx] at hab
                simp [hyz, hzy] at hbc
                have hxz : ¬ x.toNat < z.toNat := by omega
                have hzx : ¬ z.toNat < x.toNat := by omega
                simp [hxz, hzx]
                exact ih bs cs hab hbc

theorem stringLe_total (a b : String) : stringLe a b = true ∨ stringLe b a = true :=
  charListLe_total a.data b.data

theorem stringLe_trans (a b c : String) :
    stringLe a b = true → stringLe b c = true → stringLe a c = true :=
  charListLe_trans a.data b.data c.data

/-- Models `Math.ceil(v / 1000)` on an integer millisecond timestamp `v`. -/
def mathCeil1000 (v : Int) : Int := -((-v) / 1000)

/-! ## Sliding-window rate limiter (`rate-limit/redis-window.ts`) -/

/-- One recorded event marker in the Redis sorted set `ratelimit:{key}`:
a score (the millisecond timestamp it was added at) and the member string
(`` `${now}:${Math.random()}` `` in the source, kept abstract here). -/
abbrev RateMarker := Int × String

/-- Models `zremrangebyscore key 0 windowStart`: drop every marker whose score lies
in `[0, windowStart]`, i.e. every marker at or before `now - windowMs`
(scores are non-negative timestamps in practice). -/
def pruneWindow (markers : List RateMarker) (windowStart : Int) : List RateMarker :=
  markers.filter (fun m => ¬ (0 ≤ m.1 ∧ m.1 ≤ windowStart))

/-- Models `zadd key now member`: insert the member at score `now`; if the member is
already present only its score is updated (sorted sets deduplicate members). -/
def zaddMarker (markers : List RateMarker) (now : Int) (member : String) :
    List RateMarker :=
  if markers.any (fun m => m.2 = member) then
    markers.map (fun m => if m.2 = member then (now, member) else m)
  else
    markers ++ [(now, member)]

/-- The atomic `multi().zremrangebyscore(...).zadd(...).zcard(...).pexpire(...)`
batch: returns the four sub-command results (each an optional integer, `none`
standing for a sub-command that produced no usable value) together with the
post-batch sorted-set state. -/
def execRateLimitMulti (markers : List RateMarker) (now windowStart : Int)
    (member : String) : List (Option Int) × List RateMarker :=
  let pruned := pruneWindow markers windowStart
  let removed : Int := markers.length - pruned.length
  let added : Int := if pruned.any (fun m => m.2 = member) then 0 else 1
  let after := zaddMarker pruned now member
  ([some removed, some added, some (after.length : Int), some 1], after)

/-- Outcome of a rate-limit check. Both rejection conditions are surfaced as
HTTP 429 problems in the source but carry distinguishable details. -/
inductive RateLimitError
  | limiterUnavailable
  | rateLimitExceeded
  deriving DecidableEq, Repr

/-- The `detail` string of the HTTP problem each error is surfaced with. -/
def rateLimitErrorDetail : RateLimitError → String
  | .limiterUnavailable => "Rate limiter unavailable."
  | .rateLimitExceeded => "Rate limit exceeded."

structure RateLimitSuccess where
  remaining : Int
  reset : Int
  limit : Nat
  deriving DecidableEq, Repr

/-- The post-`exec` half of `enforceSlidingWindowLimit`: consume the results
of the atomic batch. `execResults = none` models `exec()` resolving to a null
result (store unavailable / aborted transaction); an entry of `none` inside
the list models a sub-command that produced no count (the source reads
`results[2]?.[1]` and coerces a missing value with `?? 0`). -/
def processExecResults (execResults : Option (List (Option Int))) (limit : Nat)
    (windowStart : Int) (windowMs : Nat) : Except RateLimitError RateLimitSuccess :=
  match execResults with
  | none => .error .limiterUnavailable
  | some results =>
    let currentCountRaw : Option Int := (results.get? 2).bind id
    let currentCount : Int := currentCountRaw.getD 0
    if currentCount > (limit : Int) then .error .rateLimitExceeded
    else
      .ok { remaining := max ((limit : Int) - currentCount) 0
            reset := mathCeil1000 (windowStart + (windowMs : Int))
            limit := limit }

/-- Function `enforceSlidingWindowLimit` against a healthy store: run the atomic batch
on the sorted-set state and process its results. Returns the outcome and the
updated marker state. -/
def enforceSlidingWindowLimit (markers : List RateMarker) (limit windowMs : Nat)
    (now : Int) (member : String) :
    Except RateLimitError RateLimitSuccess × List RateMarker :=
  let windowStart := now - (windowMs : Int)
  let (results, after) := execRateLimitMulti markers now windowStart member
  (processExecResults (some results) limit windowStart windowMs, after)

/-! ## Refresh token store (`auth/refresh-token-store.ts`) -/

/-- Models `createHash('sha256').update(token).digest('hex')`, modelled as an ideal
collision-free digest: an injective tagging of the preimage. The source only
ever compares digests for equality and length, so the idealisation preserves
all control flow under the standard assumption that SHA-256 is collision-free
on the inputs the program constructs. -/
def hashToken (token : String) : String := "sha256:" ++ token

/-- The Redis keyspace of the store: `auth:refresh:{userId}:{tokenId}` keys
mapped to the hex digest of the full token string. TTLs are not modelled. -/
abbrev RefreshStore := List (String × String)

def buildRedisKey (userId tokenId : String) : String :=
  "auth:refresh:" ++ userId ++ ":" ++ tokenId

/-- JS `String.prototype.split(sep)` for a single-character separator, on the
character list: `"a.b.c" ↦ ["a","b","c"]`, `"" ↦ [""]`, `"a." ↦ ["a",""]`. -/
def splitOnChar (sep : Char) : List Char → List (List Char)
  | [] => [[]]
  | c :: rest =>
    let r := splitOnChar sep rest
    if c = sep then [] :: r
    else
      match r with
      | [] => [[c]]
      | h :: t => (c :: h) :: t

/-- Models `token.split('.')`. -/
def jsSplitDot (s : String) : List String :=
  (splitOnChar '.' s.data).map String.mk

/-- Method `parseToken`: split on `'.'`; fewer than two parts (no separator) or an
empty leading `tokenId` (falsy in JS) is malformed. -/
def parseToken (token : String) : Option String :=
  let parts := jsSplitDot token
  if parts.length < 2 then none
  else
    match parts with
    | [] => none
    | tokenId :: _ => if tokenId = "" then none else some tokenId

/-- Method `issue(userId)` with the fresh randomness (`randomUUID`, the base64url
secret) passed in explicitly: persist the digest of `{tokenId}.{secret}`
under the scoped key and return the raw token. -/
def issueRefreshToken (store : RefreshStore) (userId tokenId secret : String) :
    (String × String) × RefreshStore :=
  let token := tokenId ++ "." ++ secret
  ((token, tokenId), insertAssoc store (buildRedisKey userId tokenId) (hashToken token))

/-- Method `verify(userId, token)`: parse, look up the stored digest, short-circuit
on length mismatch, then compare digests (`timingSafeEqual`, modelled as
equality). Total — every expected failure yields `none`, never an exception. -/
def verifyRefreshToken (store : RefreshStore) (userId token : String) :
    Option String :=
  match parseToken token with
  | none => none
  | some tokenId =>
    match lookupAssoc store (buildRedisKey userId tokenId) with
    | none => none
    | some stored =>
      if stored.length ≠ (hashToken token).length then none
      else if stored = hashToken token then some tokenId else none

/-- Method `revoke(userId, tokenId)`: delete the backing key (idempotent). -/
def revokeRefreshToken (store : RefreshStore) (userId tokenId : String) :
    RefreshStore :=
  store.filter (fun e => e.1 ≠ buildRedisKey userId tokenId)

/-- Method `rotate(userId, token)`: verify, and on success revoke the old key then
issue a fresh token (with the fresh randomness passed in); on verification
failure return `none` with the store untouched. -/
def rotateRefreshToken (store : RefreshStore) (userId token newTokenId newSecret : String) :
    Option (String × String) × RefreshStore :=
  match verifyRefreshToken store userId token with
  | none => (none, store)
  | some tokenId =>
    let store1 := revokeRefreshToken store userId tokenId
    let (issued, store2) := issueRefreshToken store1 userId newTokenId newSecret
    (some issued, store2)

/-! ## Permission cache version (`lib/prisma.ts`, `computePermissionCacheVersion`) -/

/-- Models `Array.from(new Set(...)).sort()`: deduplicate, then sort
lexicographically. -/
def dedupSortStrings (l : List String) : List String :=
  List.insertionSort (fun a b => stringLe a b = true) l.dedup

/-- The exact byte stream fed to the SHA-256 hasher by
`computePermissionCacheVersion`: the role slug (empty when null), a
`'|'`-prefixed entry per sorted deduplicated permission, and a `'|'`-prefixed
timestamp when `updatedAt` is truthy (a non-empty string; `Date` values are
passed as their ISO string). -/
def serializePermissionVersion (roleSlug : Option String) (permissions : List String)
    (updatedAt : Option String) : String :=
  let base := roleSlug.getD ""
  let withPerms := (dedupSortStrings permissions).foldl
    (fun acc p => acc ++ "|" ++ p) base
  match updatedAt with
  | none => withPerms
  | some u => if u = "" then withPerms else withPerms ++ "|" ++ u

/-- Function `computePermissionCacheVersion`: the hex digest of the serialized
preimage, with the digest modelled as the ideal collision-free `hashToken`. -/
def computePermissionCacheVersion (roleSlug : Option String)
    (permissions : List String) (updatedAt : Option String) : String :=
  hashToken (serializePermissionVersion roleSlug permissions updatedAt)

/-! ## Permission resolver (`auth/permission-service.ts`) -/

inductive OrganizationUserStatus
  | invited
  | active
  | suspended
  | revoked
  deriving DecidableEq, Repr

/-- The role relation loaded with a membership: slug plus the slugs of the
permissions reachable through `rolePermissions` (`none` for a
`rolePermission` whose `permission` relation or slug is absent). -/
structure RoleRow where
  slug : String
  rolePermissions : List (Option String)
  deriving DecidableEq, Repr

/-- One `organizationUser` row as loaded by the resolver's `findUnique`
(keyed by `(customerProfileId, userId)` — note the query carries no status
filter). -/
structure MembershipRow where
  status : OrganizationUserStatus
  role : Option RoleRow
  directPermissions : List (Option String)
  updatedAt : String
  deriving DecidableEq, Repr

/-- The authoritative relational store: membership rows keyed by
`(customerProfileId, userId)`. -/
abbrev MembershipDb := List ((String × String) × MembershipRow)

def lookupMembership (db : MembershipDb) (customerProfileId userId : String) :
    Option MembershipRow :=
  (db.find? (fun e => e.1.1 = customerProfileId ∧ e.1.2 = userId)).map (·.2)

/-- An organization claim on an access token: id, role slugs, and the
caller's claimed permission version hint. -/
structure AccessTokenOrganizationClaim where
  id : String
  roles : List String
  permissionsHash : Option String := none
  deriving DecidableEq, Repr

structure OrganizationPermissionSet where
  organizationId : String
  roleSlug : Option String
  permissions : List String
  version : String
  deriving DecidableEq, Repr

abbrev PermissionCache := List (String × OrganizationPermissionSet)

/-- Method `buildCacheKey`: `permissions:{userId}:{organizationId}:{version}`, the
hint defaulting to `v0` when null/undefined. -/
def buildCacheKey (userId organizationId : String) (versionHint : Option String) :
    String :=
  "permissions" ++ ":" ++ userId ++ ":" ++ organizationId ++ ":" ++ versionHint.getD "v0"

/-- The union of role permissions and direct grants, in insertion order,
keeping only truthy slugs (`if (…?.slug)`). -/
def membershipPermissionSlugs (m : MembershipRow) : List String :=
  (((m.role.map (·.rolePermissions)).getD []) ++ m.directPermissions).filterMap
    (fun s => match s with
      | some slug => if slug = "" then none else some slug
      | none => none)

/-- The payload the resolver computes from the authoritative store on a cache
miss. -/
def computeMembershipPayload (organizationId : String) (m : MembershipRow) :
    OrganizationPermissionSet :=
  let perms := membershipPermissionSlugs m
  { organizationId := organizationId
    roleSlug := m.role.map (·.slug)
    permissions := dedupSortStrings perms
    version := computePermissionCacheVersion (m.role.map (·.slug)) perms (some m.updatedAt) }

/-- Method `PermissionService.getOrganizationPermissions`: cache-first under the
version-hinted key; on miss, load the membership row (by the pair key alone),
compute the payload and version, write back under the hinted key and — when
the computed version differs from the hint — also under the freshly computed
version's key. Returns the payload (or `none` when no membership row exists)
and the updated cache. -/
def getOrganizationPermissions (db : MembershipDb) (cache : PermissionCache)
    (userId : String) (organization : AccessTokenOrganizationClaim) :
    Option OrganizationPermissionSet × PermissionCache :=
  let cacheKey := buildCacheKey userId organization.id organization.permissionsHash
  match lookupAssoc cache cacheKey with
  | some cached => (some cached, cache)
  | none =>
    match lookupMembership db organization.id userId with
    | none => (none, cache)
    | some membership =>
      let payload := computeMembershipPayload organization.id membership
      let cache1 := insertAssoc cache cacheKey payload
      let cache2 :=
        if payload.version ≠ organization.permissionsHash.getD "v0" then
          insertAssoc cache1 (buildCacheKey userId organization.id (some payload.version)) payload
        else cache1
      (some payload, cache2)

/-! ## Token service active context resolution (`auth/token-service.ts`) -/

inductive ActiveContextType
  | customer
  | singer
  deriving DecidableEq, Repr

structure ActiveContext where
  type : ActiveContextType
  id : String
  deriving DecidableEq, Repr

/-- A `customerProfile` row, as queried by
`customerProfile.findFirst({ where: { id, userId } })`. -/
structure CustomerProfileRow where
  id : String
  userId : String
  deriving DecidableEq, Repr

/-- Models `.sort((a, b) => a.id.localeCompare(b.id))` at the end of
`buildOrganizationClaims`: the organization claims ordered by id. -/
def sortOrganizationClaims (claims : List AccessTokenOrganizationClaim) :
    List AccessTokenOrganizationClaim :=
  List.insertionSort (fun a b => stringLe a.id b.id = true) claims

instance : IsTotal AccessTokenOrganizationClaim (fun a b => stringLe a.id b.id = true) :=
  ⟨fun a b => stringLe_total a.id b.id⟩

instance : IsTrans AccessTokenOrganizationClaim (fun a b => stringLe a.id b.id = true) :=
  ⟨fun _ _ _ hab hbc => stringLe_trans _ _ _ hab hbc⟩

/-- Method `validateActiveContext`: a customer override must match a hydrated
membership or an owned customer profile; a singer override must match the
owned singer profile id. Invalid overrides are fatal errors. -/
def validateActiveContext (profiles : List CustomerProfileRow) (userId : String)
    (context : ActiveContext) (singerProfileId : Option String)
    (organizations : List AccessTokenOrganizationClaim) : Except String Unit :=
  match context.type with
  | .customer =>
    if organizations.any (fun org => org.id = context.id) then .ok ()
    else
      match profiles.find? (fun p => p.id = context.id ∧ p.userId = userId) with
      | some _ => .ok ()
      | none => .error "User does not have access to requested customer context."
  | .singer =>
    if singerProfileId = some context.id then .ok ()
    else .error "User does not have access to requested singer context."

/-- Method `resolveActiveContext`: explicit override (validated, fatal on failure),
else the owned customer organization, else the first organization claim, else
the owned singer profile, else none. Empty-string ids are falsy in JS and
skip their branch. -/
def resolveActiveContext (profiles : List CustomerProfileRow) (userId : String)
    (override : Option ActiveContext) (ownedCustomerId : Option String)
    (singerProfileId : Option String)
    (organizations : List AccessTokenOrganizationClaim) :
    Except String (Option ActiveContext) :=
  match override with
  | some context =>
    match validateActiveContext profiles userId context singerProfileId organizations with
    | .ok _ => .ok (some context)
    | .error e => .error e
  | none =>
    let fromOrganizations : Except String (Option ActiveContext) :=
      match organizations with
      | org :: _ => .ok (some ⟨.customer, org.id⟩)
      | [] =>
        match singerProfileId with
        | some sid => if sid ≠ "" then .ok (some ⟨.singer, sid⟩) else .ok none
        | none => .ok none
    match ownedCustomerId with
    | some cid => if cid ≠ "" then .ok (some ⟨.customer, cid⟩) else fromOrganizations
    | none => fromOrganizations

/-! ## Authorization context (`auth/plugin.ts`) -/

/-- A hydrated organization entry in the authenticated user's membership
map. -/
structure AuthenticatedOrganization where
  roleSlug : Option String
  permissions : List String
  deriving DecidableEq, Repr

structure AuthenticatedUser where
  globalRoles : List String
  organizations : List (String × AuthenticatedOrganization)
  activeContext : Option ActiveContext := none
  deriving DecidableEq, Repr

/-- The two-state request classification: authenticated or not. -/
structure AuthorizationContextState where
  user : Option AuthenticatedUser
  deriving DecidableEq, Repr

/-- Option `requireOrganizationRole` accepts a single slug or an array of slugs. -/
inductive RoleRequirement
  | one (slug : String)
  | many (slugs : List String)
  deriving DecidableEq, Repr

structure OrganizationPermissionOptions where
  organizationId : Option String := none
  useActiveContext : Bool := false
  allowGlobalAdmin : Option Bool := none
  requireOrganizationRole : Option RoleRequirement := none
  deriving DecidableEq, Repr

def GLOBAL_ADMIN_ROLES : List String := ["platform-admin"]

def hasAnyGlobalRole (user : Option AuthenticatedUser) (roles : List String) : Bool :=
  match user with
  | none => false
  | some u => roles.any (fun r => u.globalRoles.contains r)

/-- Helper `normalizeRoles`: a falsy argument (absent, or the empty string) yields
no requirement; otherwise the set of the given slugs. -/
def normalizeRoles : Option RoleRequirement → Option (List String)
  | none => none
  | some (.one slug) => if slug = "" then none else some [slug]
  | some (.many slugs) => some slugs.dedup

/-- Method `resolveOrganizationId`: the explicit option when truthy, else the active
context's id when it is a customer context and `useActiveContext` is set. -/
def resolveOrganizationId (user : AuthenticatedUser)
    (options : OrganizationPermissionOptions) : Option String :=
  let fromContext : Option String :=
    if options.useActiveContext then
      match user.activeContext with
      | some ctx => if ctx.type = ActiveContextType.customer then some ctx.id else none
      | none => none
    else none
  match options.organizationId with
  | some oid => if oid ≠ "" then some oid else fromContext
  | none => fromContext

inductive AuthCheckError
  | authenticationRequired
  | organizationContextRequired (permission : String)
  | notAMember (organizationId permission : String)
  | missingRequiredRole (organizationId permission : String) (requiredRoles : List String)
  | missingPermission (organizationId permission : String)
  deriving DecidableEq, Repr

/-- Method `AuthorizationContext.requireOrganizationPermission`: require an
authenticated user; short-circuit to success for a configured global admin
unless `allowGlobalAdmin` is explicitly `false`; otherwise resolve the target
organization, require hydrated membership, optionally a role slug, and the
permission itself — every failure a typed error. -/
def requireOrganizationPermission (ctx : AuthorizationContextState)
    (permission : String) (options : OrganizationPermissionOptions) :
    Except AuthCheckError Unit :=
  match ctx.user with
  | none => .error .authenticationRequired
  | some user =>
    if options.allowGlobalAdmin ≠ some false ∧ hasAnyGlobalRole (some user) GLOBAL_ADMIN_ROLES then
      .ok ()
    else
      match resolveOrganizationId user options with
      | none => .error (.organizationContextRequired permission)
      | some organizationId =>
        if organizationId = "" then .error (.organizationContextRequired permission)
        else
          match lookupAssoc user.organizations organizationId with
          | none => .error (.notAMember organizationId permission)
          | some organization =>
            match normalizeRoles options.requireOrganizationRole with
            | some required =>
              if required.length > 0 ∧ ¬ required.contains (organization.roleSlug.getD "") then
                .error (.missingRequiredRole organizationId permission required)
              else if organization.permissions.contains permission then .ok ()
              else .error (.missingPermission organizationId permission)
            | none =>
              if organization.permissions.contains permission then .ok ()
              else .error (.missingPermission organizationId permission)

/-! ## Claim theorems -/

/-- C2: `enforceSlidingWindowLimit` first removes all markers with timestamp
at or before `now - windowMs`, inserts a new marker, and counts; a call whose
post-insert count is at most the limit succeeds returning
`remaining = max(limit - count, 0)`, a call whose post-insert count exceeds
the limit is rejected, and the rejected call's marker remains recorded so it
counts against future windows. -/
theorem slidingWindow_prune_insert_count_behavior
    (markers : List RateMarker) (limit windowMs : Nat) (now : Int) (member : String)
    (hfresh : ∀ m ∈ markers, m.2 ≠ member) :
    (enforceSlidingWindowLimit markers limit windowMs now member).2 =
      pruneWindow markers (now - (windowMs : Int)) ++ [(now, member)] ∧
    ((pruneWindow markers (now - (windowMs : Int)) ++ [(now, member)]).length ≤ limit →
      (enforceSlidingWindowLimit markers limit windowMs now member).1 =
        .ok { remaining :=
                max ((limit : Int) -
                  ((pruneWindow markers (now - (windowMs : Int)) ++ [(now, member)]).length : Int)) 0
              reset := mathCeil1000 (now - (windowMs : Int) + (windowMs : Int))
              limit := limit }) ∧
    ((pruneWindow markers (now - (windowMs : Int)) ++ [(now, member)]).length > limit →
      (enforceSlidingWindowLimit markers limit windowMs now member).1 =
        .error .rateLimitExceeded ∧
      (now, member) ∈ (enforceSlidingWindowLimit markers limit windowMs now member).2) := by
  have hprunedFresh : ∀ m ∈ pruneWindow markers (now - (windowMs : Int)), m.2 ≠ member :=
    fun m hm => hfresh m (List.mem_of_mem_filter hm)
  have hany : (pruneWindow markers (now - (windowMs : Int))).any
      (fun m => m.2 = member) = false := by
    rw [List.any_eq_false]
    intro m hm
    simpa using hprunedFresh m hm
  have hz : zaddMarker (pruneWindow markers (now - (windowMs : Int))) now member =
      pruneWindow markers (now - (windowMs : Int)) ++ [(now, member)] := by
    unfold zaddMarker
    rw [hany]
    simp
  have hstate : (enforceSlidingWindowLimit markers limit windowMs now member).2 =
      pruneWindow markers (now - (windowMs : Int)) ++ [(now, member)] := by
    simp [enforceSlidingWindowLimit, execRateLimitMulti, hz]
  refine ⟨hstate, ?_, ?_⟩
  · intro hle
    have hnot : ¬ (((pruneWindow markers (now - (windowMs : Int)) ++ [(now, member)]).length : Int)
        > (limit : Int)) := by
      omega
    simp [enforceSlidingWindowLimit, execRateLimitMulti, hz, processExecResults, hnot]
    simp at hle
    omega
  · intro hgt
    have hyes : (((pruneWindow markers (now - (windowMs : Int)) ++ [(now, member)]).length : Int)
        > (limit : Int)) := by
      omega
    refine ⟨?_, ?_⟩
    · simp [enforceSlidingWindowLimit, execRateLimitMulti, hz, processExecResults, hyes]
      simp at hgt
      omega
    · rw [hstate]
      simp

/-- C2 witness: with limit 5 and window 1000 ms, the 5th call inside the
window succeeds with 0 remaining, and the 6th call is rejected while its
marker stays recorded. -/
theorem slidingWindow_prune_insert_count_behavior_witness :
    (enforceSlidingWindowLimit
        [(2000, "m1"), (2001, "m2"), (2002, "m3"), (2003, "m4")] 5 1000 2004 "m5").1 =
      .ok { remaining :=
              max ((5 : Int) -
                ((pruneWindow [(2000, "m1"), (2001, "m2"), (2002, "m3"), (2003, "m4")]
                    (2004 - (1000 : Int)) ++ [(2004, "m5")]).length : Int)) 0
            reset := mathCeil1000 (2004 - (1000 : Int) + (1000 : Int))
            limit := 5 } ∧
    (enforceSlidingWindowLimit
        [(2000, "m1"), (2001, "m2"), (2002, "m3"), (2003, "m4"), (2004, "m5")]
        5 1000 2005 "m6").1 = .error .rateLimitExceeded ∧
    (2005, "m6") ∈ (enforceSlidingWindowLimit
        [(2000, "m1"), (2001, "m2"), (2002, "m3"), (2003, "m4"), (2004, "m5")]
        5 1000 2005 "m6").2 :=
  ⟨(slidingWindow_prune_insert_count_behavior
      [(2000, "m1"), (2001, "m2"), (2002, "m3"), (2003, "m4")] 5 1000 2004 "m5"
      (by decide)).2.1 (by decide),
   (slidingWindow_prune_insert_count_behavior
      [(2000, "m1"), (2001, "m2"), (2002, "m3"), (2003, "m4"), (2004, "m5")] 5 1000 2005 "m6"
      (by decide)).2.2 (by decide)⟩

/-- C3 (code bug): when `exec()` yields a null result the limiter rejects
with the distinguishable "limiter unavailable" condition, but when the batch
result is present and the `zcard` sub-command produced no count (a failed
sub-command), the code coerces the count to 0 and ADMITS the request with a
full allowance — a fail-open outcome contradicting the fail-closed
requirement. -/
theorem slidingWindow_subcommandFailure_failsOpen :
    processExecResults none 5 4000 1000 = .error .limiterUnavailable ∧
    rateLimitErrorDetail .limiterUnavailable ≠ rateLimitErrorDetail .rateLimitExceeded ∧
    processExecResults (some [some 0, none, none, some 1]) 5 4000 1000 =
      .ok { remaining := 5, reset := 5, limit := 5 } :=
  ⟨rfl, by decide, rfl⟩

/-- C10: every successful `enforceSlidingWindowLimit` call returns
`reset = ceil(now / 1000)` — since `windowStart + windowMs = now`, the
window-reset hint is the current second of the call itself, never later than
the second that contains `now`. -/
theorem processExecResults_ok_reset (execResults : Option (List (Option Int)))
    (limit : Nat) (windowStart : Int) (windowMs : Nat) (r : RateLimitSuccess)
    (h : processExecResults execResults limit windowStart windowMs = .ok r) :
    r.reset = mathCeil1000 (windowStart + (windowMs : Int)) := by
  cases execResults with
  | none => exact absurd h (by simp [processExecResults])
  | some results =>
    simp only [processExecResults] at h
    split at h
    · exact absurd h (by simp)
    · injection h with h
      rw [← h]

theorem slidingWindow_reset_is_current_second
    (markers : List RateMarker) (limit windowMs : Nat) (now : Int) (member : String)
    (r : RateLimitSuccess) (after : List RateMarker)
    (h : enforceSlidingWindowLimit markers limit windowMs now member = (.ok r, after)) :
    r.reset = mathCeil1000 now ∧ 1000 * r.reset ≤ now + 999 := by
  have h1 : processExecResults
      (some (execRateLimitMulti markers now (now - (windowMs : Int)) member).1)
      limit (now - (windowMs : Int)) windowMs = .ok r := by
    have := congrArg Prod.fst h
    simpa [enforceSlidingWindowLimit] using this
  have hr := processExecResults_ok_reset _ _ _ _ _ h1
  have hnow : now - (windowMs : Int) + (windowMs : Int) = now := by ring
  rw [hnow] at hr
  refine ⟨hr, ?_⟩
  rw [hr]
  unfold mathCeil1000
  omega

/-- C10 witness: a concrete successful call at `now = 2004` ms returns the
reset hint `ceil(2004 / 1000) = 3`. -/
theorem slidingWindow_reset_is_current_second_witness :
    ({ remaining := 4, reset := 3, limit := 5 } : RateLimitSuccess).reset =
      mathCeil1000 2004 ∧
    1000 * ({ remaining := 4, reset := 3, limit := 5 } : RateLimitSuccess).reset ≤
      2004 + 999 :=
  slidingWindow_reset_is_current_second [] 5 1000 2004 "m1"
    { remaining := 4, reset := 3, limit := 5 } [(2004, "m1")] rfl

theorem string_append_left_cancel {p a b : String} (h : p ++ a = p ++ b) : a = b := by
  have hd := congrArg String.data h
  simp [String.data_append] at hd
  exact String.ext hd

theorem hashToken_injective {a b : String} (h : hashToken a = hashToken b) : a = b :=
  string_append_left_cancel h

theorem buildRedisKey_tokenId_injective {userId t1 t2 : String}
    (h : buildRedisKey userId t1 = buildRedisKey userId t2) : t1 = t2 :=
  string_append_left_cancel h

theorem lookupAssoc_filter_ne_self {β : Type} (l : List (String × β)) (k : String) :
    lookupAssoc (l.filter (fun e => e.1 ≠ k)) k = none := by
  induction l with
  | nil => rfl
  | cons e rest ih =>
    by_cases he : e.1 = k
    · simpa [List.filter, he] using ih
    · simpa [List.filter, he, lookupAssoc] using ih

theorem verifyRefreshToken_some_iff (store : RefreshStore) (userId token tokenId : String) :
    verifyRefreshToken store userId token = some tokenId ↔
      (parseToken token = some tokenId ∧
        lookupAssoc store (buildRedisKey userId tokenId) = some (hashToken token)) := by
  unfold verifyRefreshToken
  constructor
  · intro h
    split at h
    · exact absurd h (by simp)
    next tid hp =>
      split at h
      · exact absurd h (by simp)
      next stored hl =>
        split at h
        · exact absurd h (by simp)
        next hlen =>
          split at h
          next heq =>
            injection h with h
            subst h
            exact ⟨hp, by rw [hl, heq]⟩
          · exact absurd h (by simp)
  · rintro ⟨hp, hl⟩
    simp [hp, hl]

/-- C4: refresh rotation is single-use — when `rotate` succeeds (with fresh
randomness, so the reissued token string differs from the presented one), a
subsequent `verify` of the old token against the updated store returns null;
and when `rotate`'s internal verification fails, it returns null and leaves
the store untouched (no new token is persisted). -/
theorem refreshToken_rotate_single_use
    (store : RefreshStore) (userId token newTokenId newSecret : String)
    (hfresh : newTokenId ++ "." ++ newSecret ≠ token) :
    (∀ issued store',
      rotateRefreshToken store userId token newTokenId newSecret = (some issued, store') →
      verifyRefreshToken store' userId token = none) ∧
    (verifyRefreshToken store userId token = none →
      rotateRefreshToken store userId token newTokenId newSecret = (none, store)) := by
  constructor
  · intro issued store' hrot
    cases hv : verifyRefreshToken store userId token with
    | none =>
      rw [rotateRefreshToken] at hrot
      rw [hv] at hrot
      exact absurd (congrArg Prod.fst hrot) (by simp)
    | some tokenId =>
      have hparse : parseToken token = some tokenId :=
        ((verifyRefreshToken_some_iff store userId token tokenId).mp hv).1
      rw [rotateRefreshToken] at hrot
      rw [hv] at hrot
      simp only [issueRefreshToken, revokeRefreshToken, Prod.mk.injEq] at hrot
      have hstore' : store' =
          insertAssoc (store.filter (fun e => e.1 ≠ buildRedisKey userId tokenId))
            (buildRedisKey userId newTokenId)
            (hashToken (newTokenId ++ "." ++ newSecret)) := hrot.2.symm
      cases hcase : verifyRefreshToken store' userId token with
      | none => rfl
      | some t =>
        exfalso
        obtain ⟨hp, hl⟩ := (verifyRefreshToken_some_iff store' userId token t).mp hcase
        have ht : t = tokenId := by
          rw [hparse] at hp
          injection hp with hp
          rw [hp]
        rw [ht, hstore'] at hl
        by_cases hid : buildRedisKey userId newTokenId = buildRedisKey userId tokenId
        · rw [hid, lookupAssoc_insert_self] at hl
          injection hl with hl
          exact hfresh (hashToken_injective hl)
        · rw [lookupAssoc_insert_ne _ _ _ _ hid, lookupAssoc_filter_ne_self] at hl
          exact absurd hl (by simp)
  · intro hv
    rw [rotateRefreshToken, hv]

/-- C4 witness: issuing `t1.s1`, rotating it to `t2.s2`, then verifying the
old token against the rotated store yields null; and rotating an unknown
token against an empty store returns null without touching it. -/
theorem refreshToken_rotate_single_use_witness :
    verifyRefreshToken
      [("auth:refresh:" ++ "u" ++ ":" ++ "t2", hashToken ("t2" ++ "." ++ "s2"))]
      "u" "t1.s1" = none ∧
    rotateRefreshToken [] "u" "t1.s1" "t2" "s2" = (none, []) :=
  ⟨(refreshToken_rotate_single_use
      [("auth:refresh:" ++ "u" ++ ":" ++ "t1", hashToken ("t1" ++ "." ++ "s1"))]
      "u" "t1.s1" "t2" "s2" (by decide)).1
      ("t2" ++ "." ++ "s2", "t2") _ (by decide),
   (refreshToken_rotate_single_use [] "u" "t1.s1" "t2" "s2" (by decide)).2 (by decide)⟩

/-- C9: `verify` is total and returns null — never an exception — on every
expected failure: a malformed token (no `.` separator or empty tokenId), an
absent stored key, a stored digest of a different length than the computed
digest, or a digest mismatch; it returns the parsed tokenId exactly when the
stored digest equals the digest of the full presented token. -/
theorem refreshToken_verify_null_on_failure (store : RefreshStore) (userId token : String) :
    (parseToken token = none → verifyRefreshToken store userId token = none) ∧
    (∀ tokenId, parseToken token = some tokenId →
      lookupAssoc store (buildRedisKey userId tokenId) = none →
      verifyRefreshToken store userId token = none) ∧
    (∀ tokenId stored, parseToken token = some tokenId →
      lookupAssoc store (buildRedisKey userId tokenId) = some stored →
      stored.length ≠ (hashToken token).length →
      verifyRefreshToken store userId token = none) ∧
    (∀ tokenId stored, parseToken token = some tokenId →
      lookupAssoc store (buildRedisKey userId tokenId) = some stored →
      stored ≠ hashToken token →
      verifyRefreshToken store userId token = none) ∧
    (∀ tokenId, verifyRefreshToken store userId token = some tokenId ↔
      (parseToken token = some tokenId ∧
        lookupAssoc store (buildRedisKey userId tokenId) = some (hashToken token))) := by
  refine ⟨?_, ?_, ?_, ?_, fun tokenId => verifyRefreshToken_some_iff store userId token tokenId⟩
  · intro hp
    simp [verifyRefreshToken, hp]
  · intro tokenId hp hl
    simp [verifyRefreshToken, hp, hl]
  · intro tokenId stored hp hl hlen
    simp [verifyRefreshToken, hp, hl, hlen]
  · intro tokenId stored hp hl hne
    simp [verifyRefreshToken, hp, hl, hne]

/-- C9 witness: concrete failures — a token with no separator, an empty
tokenId, an unknown key, and a digest mismatch — each verify to null, and a
matching stored digest verifies to the parsed tokenId. -/
theorem refreshToken_verify_null_on_failure_witness :
    verifyRefreshToken [("auth:refresh:u:t1", hashToken "t1.s1")] "u" "nodot" = none ∧
    verifyRefreshToken [("auth:refresh:u:t1", hashToken "t1.s1")] "u" ".s1" = none ∧
    verifyRefreshToken [] "u" "t1.s1" = none ∧
    verifyRefreshToken [("auth:refresh:u:t1", hashToken "t1.sX")] "u" "t1.s1" = none ∧
    verifyRefreshToken [("auth:refresh:u:t1", hashToken "t1.s1")] "u" "t1.s1" = some "t1" := by
  refine ⟨?_, ?_, ?_, ?_, ?_⟩
  · exact (refreshToken_verify_null_on_failure
      [("auth:refresh:u:t1", hashToken "t1.s1")] "u" "nodot").1 (by decide)
  · exact (refreshToken_verify_null_on_failure
      [("auth:refresh:u:t1", hashToken "t1.s1")] "u" ".s1").1 (by decide)
  · exact (refreshToken_verify_null_on_failure [] "u" "t1.s1").2.1 "t1" (by decide) (by decide)
  · exact (refreshToken_verify_null_on_failure
      [("auth:refresh:u:t1", hashToken "t1.sX")] "u" "t1.s1").2.2.2.1 "t1" (hashToken "t1.sX")
      (by decide) (by decide) (by decide)
  · exact ((refreshToken_verify_null_on_failure
      [("auth:refresh:u:t1", hashToken "t1.s1")] "u" "t1.s1").2.2.2.2 "t1").mpr
      ⟨by decide, by decide⟩

/-- C6 counterexample: `computePermissionCacheVersion` is not injective —
with the role slug and the updatedAt timestamp held fixed, the permission
sets `{"a|b"}` and `{"a", "b"}` are distinct yet serialize to the same
`'|'`-joined preimage `r|a|b|2024`, so they yield the identical version
token: a change to the permission set alone does not always change the
output. -/
theorem permissionVersion_injective_counterexample :
    computePermissionCacheVersion (some "r") ["a|b"] (some "2024") =
      computePermissionCacheVersion (some "r") ["a", "b"] (some "2024") ∧
    "a" ∈ (["a", "b"] : List String) ∧ "a" ∉ (["a|b"] : List String) := by
  refine ⟨by decide, by decide, by decide⟩

/-- C6 amended: `computePermissionCacheVersion` is deterministic (equal
inputs always yield an identical token), and two inputs yield equal tokens
exactly when their serialized preimages (role slug, then `'|'`-prefixed
sorted deduplicated permissions, then `'|'`-prefixed truthy updatedAt) are
equal — so any change that alters the serialization alters the token, but
distinct triples with colliding serializations collide. -/
theorem permissionVersion_deterministic_serialization_characterization
    (r1 r2 : Option String) (p1 p2 : List String) (u1 u2 : Option String) :
    computePermissionCacheVersion r1 p1 u1 = computePermissionCacheVersion r1 p1 u1 ∧
    (computePermissionCacheVersion r1 p1 u1 = computePermissionCacheVersion r2 p2 u2 ↔
      serializePermissionVersion r1 p1 u1 = serializePermissionVersion r2 p2 u2) := by
  refine ⟨rfl, ?_⟩
  unfold computePermissionCacheVersion
  exact ⟨fun h => hashToken_injective h, fun h => congrArg hashToken h⟩

theorem buildCacheKey_version_injective {userId organizationId : String}
    {v1 v2 : Option String}
    (h : buildCacheKey userId organizationId v1 = buildCacheKey userId organizationId v2) :
    v1.getD "v0" = v2.getD "v0" :=
  string_append_left_cancel h

/-- A suspended membership row: the status field is present in the row but
never consulted by `getOrganizationPermissions`. -/
def suspendedMembershipRow : MembershipRow :=
  { status := .suspended
    role := some { slug := "r", rolePermissions := [some "p"] }
    directPermissions := []
    updatedAt := "2024-01-01T00:00:00.000Z" }

/-- C1 counterexample: `getOrganizationPermissions` does not return null for
a membership whose status is not active — the membership query is keyed by
`(customerProfileId, userId)` alone and carries no status filter, so a
suspended membership still yields a full permission set. -/
theorem permissions_nonActiveMembership_counterexample :
    suspendedMembershipRow.status = .suspended ∧
    (getOrganizationPermissions [(("org1", "u1"), suspendedMembershipRow)] [] "u1"
        { id := "org1", roles := [] }).1 =
      some (computeMembershipPayload "org1" suspendedMembershipRow) := by
  exact ⟨rfl, by decide⟩

/-- C1 amended: on a cache miss, `getOrganizationPermissions` returns null
exactly when no membership row exists for the `(userId, organization)` pair —
the membership status (invited, active, suspended, revoked) is not consulted,
so a non-active membership still yields the permission set. -/
theorem permissions_null_iff_no_membership_row (db : MembershipDb)
    (cache : PermissionCache) (userId : String)
    (organization : AccessTokenOrganizationClaim)
    (hmiss : lookupAssoc cache
      (buildCacheKey userId organization.id organization.permissionsHash) = none) :
    ((getOrganizationPermissions db cache userId organization).1 = none ↔
      lookupMembership db organization.id userId = none) := by
  unfold getOrganizationPermissions
  cases hm : lookupMembership db organization.id userId <;> simp [hmiss, hm]

/-- C1 amended witness: with an empty cache, the suspended-membership store
yields a non-null result (membership row present), matching the iff. -/
theorem permissions_null_iff_no_membership_row_witness :
    ((getOrganizationPermissions [(("org1", "u1"), suspendedMembershipRow)] [] "u1"
        { id := "org1", roles := [], permissionsHash := none }).1 = none ↔
      lookupMembership [(("org1", "u1"), suspendedMembershipRow)] "org1" "u1" = none) :=
  permissions_null_iff_no_membership_row
    [(("org1", "u1"), suspendedMembershipRow)] [] "u1"
    { id := "org1", roles := [], permissionsHash := none } (by decide)

/-- An active membership row used to exercise the stale-hint path. -/
def activeMembershipRow : MembershipRow :=
  { status := .active
    role := some { slug := "customer-admin", rolePermissions := [some "customer.venues"] }
    directPermissions := [some "customer.songs"]
    updatedAt := "2024-02-02T00:00:00.000Z" }

/-- The membership row after the underlying data changed: the role's grant
and the direct grant were revoked and the row's `updatedAt` bumped, so its
version differs from any previously issued one. -/
def c5CurrentRow : MembershipRow :=
  { status := .active
    role := some { slug := "customer-admin", rolePermissions := [] }
    directPermissions := []
    updatedAt := "2024-03-03T00:00:00.000Z" }

/-- C5 counterexample: the claim fails for a stale-hinted call whose hinted
cache key is populated. The resolver itself back-fills the fresh payload
under the *stale* hinted key (with a TTL), so after the underlying data
changes again, a later call bearing the same stale hint hits that entry and
returns the old (now stale, not current) permission set, recomputes nothing,
and writes nothing — in particular no entry appears under the key of the
current version. Concretely: the hint `"vstale"` differs from the current
version of `c5CurrentRow`, the cache holds the earlier back-filled payload of
`activeMembershipRow` under the hinted key, and the call returns that old
payload with the cache unchanged. -/
theorem permissions_staleHint_cacheHit_counterexample :
    (computeMembershipPayload "org1" c5CurrentRow).version ≠ "vstale" ∧
    computeMembershipPayload "org1" activeMembershipRow ≠
      computeMembershipPayload "org1" c5CurrentRow ∧
    (getOrganizationPermissions [(("org1", "u1"), c5CurrentRow)]
        [(buildCacheKey "u1" "org1" (some "vstale"),
          computeMembershipPayload "org1" activeMembershipRow)]
        "u1" { id := "org1", roles := [], permissionsHash := some "vstale" }).1 =
      some (computeMembershipPayload "org1" activeMembershipRow) ∧
    (getOrganizationPermissions [(("org1", "u1"), c5CurrentRow)]
        [(buildCacheKey "u1" "org1" (some "vstale"),
          computeMembershipPayload "org1" activeMembershipRow)]
        "u1" { id := "org1", roles := [], permissionsHash := some "vstale" }).2 =
      [(buildCacheKey "u1" "org1" (some "vstale"),
        computeMembershipPayload "org1" activeMembershipRow)] ∧
    lookupAssoc
      (getOrganizationPermissions [(("org1", "u1"), c5CurrentRow)]
        [(buildCacheKey "u1" "org1" (some "vstale"),
          computeMembershipPayload "org1" activeMembershipRow)]
        "u1" { id := "org1", roles := [], permissionsHash := some "vstale" }).2
      (buildCacheKey "u1" "org1"
        (some (computeMembershipPayload "org1" c5CurrentRow).version)) = none := by
  refine ⟨by decide, by decide, by decide, by decide, by decide⟩

/-- C5 amended: a call carrying a stale version hint (different from the
version computed from the authoritative store) *whose hinted cache key is
absent* — e.g. the first stale-hinted call, or any such call after the
hinted entry's TTL lapsed — recomputes the payload from the membership row,
returns that current payload, and writes it back under both the hinted key
and the freshly computed current-version key. (A later call bearing the same
stale hint can hit the back-filled hinted entry within its TTL and returns
it without recomputation.) -/
theorem permissions_staleHint_selfHealing (db : MembershipDb)
    (cache : PermissionCache) (userId : String)
    (organization : AccessTokenOrganizationClaim) (membership : MembershipRow)
    (hmiss : lookupAssoc cache
      (buildCacheKey userId organization.id organization.permissionsHash) = none)
    (hmem : lookupMembership db organization.id userId = some membership)
    (hstale : (computeMembershipPayload organization.id membership).version ≠
      organization.permissionsHash.getD "v0") :
    (getOrganizationPermissions db cache userId organization).1 =
      some (computeMembershipPayload organization.id membership) ∧
    lookupAssoc (getOrganizationPermissions db cache userId organization).2
      (buildCacheKey userId organization.id organization.permissionsHash) =
      some (computeMembershipPayload organization.id membership) ∧
    lookupAssoc (getOrganizationPermissions db cache userId organization).2
      (buildCacheKey userId organization.id
        (some (computeMembershipPayload organization.id membership).version)) =
      some (computeMembershipPayload organization.id membership) := by
  have hkeys : buildCacheKey userId organization.id
      (some (computeMembershipPayload organization.id membership).version) ≠
      buildCacheKey userId organization.id organization.permissionsHash := by
    intro h
    exact hstale (by simpa using buildCacheKey_version_injective h)
  unfold getOrganizationPermissions
  simp only [hmiss, hmem, if_pos hstale]
  refine ⟨by trivial, ?_, ?_⟩
  · rw [lookupAssoc_insert_ne _ _ _ _ hkeys, lookupAssoc_insert_self]
  · rw [lookupAssoc_insert_self]

/-- C5 amended witness: a concrete stale hint `"vstale"` with the hinted key
absent from the cache misses, the current payload
is returned, and both the hinted key and the current-version key now map to
it. -/
theorem permissions_staleHint_selfHealing_witness :
    (getOrganizationPermissions [(("org1", "u1"), activeMembershipRow)] [] "u1"
        { id := "org1", roles := [], permissionsHash := some "vstale" }).1 =
      some (computeMembershipPayload "org1" activeMembershipRow) ∧
    lookupAssoc (getOrganizationPermissions [(("org1", "u1"), activeMembershipRow)] [] "u1"
        { id := "org1", roles := [], permissionsHash := some "vstale" }).2
      (buildCacheKey "u1" "org1" (some "vstale")) =
      some (computeMembershipPayload "org1" activeMembershipRow) ∧
    lookupAssoc (getOrganizationPermissions [(("org1", "u1"), activeMembershipRow)] [] "u1"
        { id := "org1", roles := [], permissionsHash := some "vstale" }).2
      (buildCacheKey "u1" "org1"
        (some (computeMembershipPayload "org1" activeMembershipRow).version)) =
      some (computeMembershipPayload "org1" activeMembershipRow) :=
  permissions_staleHint_selfHealing [(("org1", "u1"), activeMembershipRow)] [] "u1"
    { id := "org1", roles := [], permissionsHash := some "vstale" }
    activeMembershipRow (by decide) (by decide) (by decide)

theorem charListLe_refl (a : List Char) : charListLe a a = true := by
  induction a with
  | nil => rfl
  | cons x as ih => simp [charListLe, ih]

theorem stringLe_refl (a : String) : stringLe a a = true := charListLe_refl a.data

/-- C6 amended witness: the characterization applied at concrete inputs —
changing the role slug from `r` to `r2` changes the serialization and hence
the token. -/
theorem permissionVersion_characterization_witness :
    (computePermissionCacheVersion (some "r") ["a"] none =
      computePermissionCacheVersion (some "r") ["a"] none) ∧
    (computePermissionCacheVersion (some "r") ["a"] none =
        computePermissionCacheVersion (some "r2") ["a"] none ↔
      serializePermissionVersion (some "r") ["a"] none =
        serializePermissionVersion (some "r2") ["a"] none) :=
  permissionVersion_deterministic_serialization_characterization
    (some "r") (some "r2") ["a"] ["a"] none none

/-- C7: when building access-token claims the active context is resolved
with exactly this precedence over the id-sorted organization claims:
(1) the explicit override when present — validated against hydrated
membership, owned customer profile, or owned singer profile, and raising the
validation failure as a fatal error rather than silently falling back;
(2) the user's own customer organization; (3) the first organization claim in
sorted order (the minimal organization id); (4) the owned singer profile;
(5) none. Empty-string ids are falsy and skip their branch. -/
theorem tokenService_activeContext_precedence
    (profiles : List CustomerProfileRow) (userId : String)
    (override : Option ActiveContext) (ownedCustomerId singerProfileId : Option String)
    (organizations : List AccessTokenOrganizationClaim) :
    (∀ context, override = some context →
      validateActiveContext profiles userId context singerProfileId
        (sortOrganizationClaims organizations) = .ok () →
      resolveActiveContext profiles userId override ownedCustomerId singerProfileId
        (sortOrganizationClaims organizations) = .ok (some context)) ∧
    (∀ context e, override = some context →
      validateActiveContext profiles userId context singerProfileId
        (sortOrganizationClaims organizations) = .error e →
      resolveActiveContext profiles userId override ownedCustomerId singerProfileId
        (sortOrganizationClaims organizations) = .error e) ∧
    (∀ context, context.type = .customer →
      (validateActiveContext profiles userId context singerProfileId
          (sortOrganizationClaims organizations) = .ok () ↔
        ((sortOrganizationClaims organizations).any (fun org => org.id = context.id) = true ∨
          ∃ p ∈ profiles, p.id = context.id ∧ p.userId = userId))) ∧
    (∀ context, context.type = .singer →
      (validateActiveContext profiles userId context singerProfileId
          (sortOrganizationClaims organizations) = .ok () ↔
        singerProfileId = some context.id)) ∧
    (∀ cid, override = none → ownedCustomerId = some cid → cid ≠ "" →
      resolveActiveContext profiles userId override ownedCustomerId singerProfileId
        (sortOrganizationClaims organizations) = .ok (some ⟨.customer, cid⟩)) ∧
    (override = none → (ownedCustomerId = none ∨ ownedCustomerId = some "") →
      organizations ≠ [] →
      ∃ first rest, sortOrganizationClaims organizations = first :: rest ∧
        resolveActiveContext profiles userId override ownedCustomerId singerProfileId
          (sortOrganizationClaims organizations) = .ok (some ⟨.customer, first.id⟩) ∧
        first ∈ organizations ∧
        ∀ c ∈ organizations, stringLe first.id c.id = true) ∧
    (∀ sid, override = none → (ownedCustomerId = none ∨ ownedCustomerId = some "") →
      organizations = [] → singerProfileId = some sid → sid ≠ "" →
      resolveActiveContext profiles userId override ownedCustomerId singerProfileId
        (sortOrganizationClaims organizations) = .ok (some ⟨.singer, sid⟩)) ∧
    (override = none → (ownedCustomerId = none ∨ ownedCustomerId = some "") →
      organizations = [] → (singerProfileId = none ∨ singerProfileId = some "") →
      resolveActiveContext profiles userId override ownedCustomerId singerProfileId
        (sortOrganizationClaims organizations) = .ok none) := by
  have hperm : List.Perm (sortOrganizationClaims organizations) organizations :=
    List.perm_insertionSort _ organizations
  have hsort : List.Sorted (fun a b => stringLe a.id b.id = true)
      (sortOrganizationClaims organizations) :=
    List.sorted_insertionSort _ organizations
  refine ⟨?_, ?_, ?_, ?_, ?_, ?_, ?_, ?_⟩
  · intro context hov hval
    subst hov
    simp [resolveActiveContext, hval]
  · intro context e hov hval
    subst hov
    simp [resolveActiveContext, hval]
  · intro context hty
    simp only [validateActiveContext, hty]
    split
    next hany =>
      exact ⟨fun _ => Or.inl hany, fun _ => rfl⟩
    next hany =>
      split
      next p hfind =>
        have hmem := List.mem_of_find?_eq_some hfind
        have hpred := List.find?_some hfind
        simp only [decide_eq_true_eq] at hpred
        exact ⟨fun _ => Or.inr ⟨p, hmem, hpred.1, hpred.2⟩, fun _ => rfl⟩
      next hfind =>
        constructor
        · intro h
          exact absurd h (by simp)
        · rintro (h | ⟨p, hp, hid, huid⟩)
          · exact absurd h hany
          · exact absurd (decide_eq_true (show p.id = context.id ∧ p.userId = userId from
              ⟨hid, huid⟩)) (by simpa using List.find?_eq_none.mp hfind p hp)
  · intro context hty
    simp only [validateActiveContext, hty]
    by_cases hsid : singerProfileId = some context.id
    · simp [hsid]
    · simp [hsid]
  · intro cid hov hown hne
    subst hov
    subst hown
    simp [resolveActiveContext, hne]
  · intro hov hown hne
    cases hs : sortOrganizationClaims organizations with
    | nil =>
      exfalso
      apply hne
      have h0 : List.Perm ([] : List AccessTokenOrganizationClaim) organizations := hs ▸ hperm
      exact h0.nil_eq.symm
    | cons first rest =>
      subst hov
      refine ⟨first, rest, rfl, ?_, ?_, ?_⟩
      · rcases hown with h | h <;> subst h <;> simp [resolveActiveContext, hs]
      · exact hperm.subset (by rw [hs]; exact List.mem_cons_self first rest)
      · intro c hc
        have hcs : c ∈ sortOrganizationClaims organizations := hperm.symm.subset hc
        rw [hs] at hcs
        rcases List.mem_cons.mp hcs with h | h
        · rw [h]
          exact stringLe_refl _
        · have hsorted : List.Sorted (fun a b => stringLe a.id b.id = true) (first :: rest) :=
            hs ▸ hsort
          exact List.rel_of_sorted_cons hsorted c h
  · intro sid hov hown horg hsid hne
    subst hov
    subst hsid
    subst horg
    rcases hown with h | h <;> subst h <;> simp [resolveActiveContext, sortOrganizationClaims, hne]
  · intro hov hown horg hsid
    subst hov
    subst horg
    rcases hown with h | h <;> rcases hsid with h2 | h2 <;> subst h <;> subst h2 <;>
      simp [resolveActiveContext, sortOrganizationClaims]

/-- C7 witness: an invalid customer override is a fatal error even though an
owned customer organization was available as a fallback; and with no override
and no owned organization, the context falls to the membership with the
minimal organization id. -/
theorem tokenService_activeContext_precedence_witness :
    resolveActiveContext [] "u1" (some ⟨ActiveContextType.customer, "orgX"⟩) (some "own1")
        none (sortOrganizationClaims []) =
      .error "User does not have access to requested customer context." ∧
    (∃ first rest,
      sortOrganizationClaims
          [⟨"orgB", ["customer-admin"], none⟩, ⟨"orgA", ["customer-admin"], none⟩] =
        first :: rest ∧
      resolveActiveContext [] "u1" none none none
          (sortOrganizationClaims
            [⟨"orgB", ["customer-admin"], none⟩, ⟨"orgA", ["customer-admin"], none⟩]) =
        .ok (some ⟨ActiveContextType.customer, first.id⟩) ∧
      first ∈ [(⟨"orgB", ["customer-admin"], none⟩ : AccessTokenOrganizationClaim),
        ⟨"orgA", ["customer-admin"], none⟩] ∧
      ∀ c ∈ [(⟨"orgB", ["customer-admin"], none⟩ : AccessTokenOrganizationClaim),
        ⟨"orgA", ["customer-admin"], none⟩], stringLe first.id c.id = true) :=
  ⟨(tokenService_activeContext_precedence [] "u1"
      (some ⟨ActiveContextType.customer, "orgX"⟩) (some "own1") none []).2.1
      ⟨ActiveContextType.customer, "orgX"⟩
      "User does not have access to requested customer context." rfl rfl,
   (tokenService_activeContext_precedence [] "u1" none none none
      [⟨"orgB", ["customer-admin"], none⟩, ⟨"orgA", ["customer-admin"], none⟩]).2.2.2.2.2.1
      rfl (Or.inl rfl) (by simp)⟩

/-- C8: an authenticated caller holding the configured global-admin role
passes `requireOrganizationPermission` regardless of memberships — even with
zero organization entries — unless `allowGlobalAdmin` is explicitly `false`,
in which case hydrated membership in the resolved organization and possession
of the permission are strictly required, and their absence raises a typed
authorization error. -/
theorem authz_globalAdmin_precedence
    (ctx : AuthorizationContextState) (permission : String)
    (options : OrganizationPermissionOptions) (user : AuthenticatedUser) :
    (ctx.user = some user → user.globalRoles.contains "platform-admin" = true →
      options.allowGlobalAdmin ≠ some false →
      requireOrganizationPermission ctx permission options = .ok ()) ∧
    (ctx.user = some user → options.allowGlobalAdmin = some false →
      ∀ oid, resolveOrganizationId user options = some oid → oid ≠ "" →
        lookupAssoc user.organizations oid = none →
        requireOrganizationPermission ctx permission options =
          .error (.notAMember oid permission)) ∧
    (ctx.user = some user → options.allowGlobalAdmin = some false →
      requireOrganizationPermission ctx permission options = .ok () →
      ∃ oid organization, resolveOrganizationId user options = some oid ∧
        lookupAssoc user.organizations oid = some organization ∧
        organization.permissions.contains permission = true) := by
  refine ⟨?_, ?_, ?_⟩
  · intro hu hrole hadmin
    have hmem : "platform-admin" ∈ user.globalRoles := by simpa using hrole
    have hhas : hasAnyGlobalRole (some user) GLOBAL_ADMIN_ROLES = true := by
      simp [hasAnyGlobalRole, GLOBAL_ADMIN_ROLES, hmem]
    simp [requireOrganizationPermission, hu, hhas, hadmin]
  · intro hu hadmin oid hres hne hlook
    simp [requireOrganizationPermission, hu, hadmin, hres, hne, hlook]
  · intro hu hadmin hok
    simp only [requireOrganizationPermission, hu] at hok
    rw [if_neg (by simp [hadmin])] at hok
    split at hok
    · exact absurd hok (by simp)
    next oid hres =>
      split at hok
      · exact absurd hok (by simp)
      next hne =>
        split at hok
        · exact absurd hok (by simp)
        next organization hlook =>
          refine ⟨oid, organization, hres, hlook, ?_⟩
          split at hok
          next required hreq =>
            split at hok
            · exact absurd hok (by simp)
            · split at hok
              · assumption
              · exact absurd hok (by simp)
          next hreq =>
            split at hok
            · assumption
            · exact absurd hok (by simp)

/-- C8 witness: a platform admin with zero hydrated memberships passes the
check by default, and the same caller with `allowGlobalAdmin := false` is
rejected as not a member of the target organization. -/
theorem authz_globalAdmin_precedence_witness :
    requireOrganizationPermission ⟨some ⟨["platform-admin"], [], none⟩⟩
      "customer.venues" {} = .ok () ∧
    requireOrganizationPermission ⟨some ⟨["platform-admin"], [], none⟩⟩
      "customer.venues" { organizationId := some "o1", allowGlobalAdmin := some false } =
      .error (.notAMember "o1" "customer.venues") :=
  ⟨(authz_globalAdmin_precedence ⟨some ⟨["platform-admin"], [], none⟩⟩
      "customer.venues" {} ⟨["platform-admin"], [], none⟩).1 rfl (by decide) (by decide),
   (authz_globalAdmin_precedence ⟨some ⟨["platform-admin"], [], none⟩⟩
      "customer.venues" { organizationId := some "o1", allowGlobalAdmin := some false }
      ⟨["platform-admin"], [], none⟩).2.1 rfl rfl "o1" rfl (by decide) rfl⟩

end Singr
